import Mathlib

/-!
# Verification of the document-context cache and chat request handler

Shallow embedding of the core of the `csv_analysis_chatbot` repository
(`Chatbot` class of the simplified backend): the document content
normalization pipeline, the content signature hash, the cached document
loading state machine, the recursive supported-file enumeration with
deterministic sorting, the document reading loop, and the chat request
handler with its error mapping.

Strings are modelled as lists of Unicode characters; JavaScript UTF-16
code units coincide with code points on the basic multilingual plane,
which covers all inputs considered here.  Regular-expression replacement
is modelled by a small backtracking matcher with the exact greedy
semantics of the JavaScript patterns used by the source.
-/

set_option maxRecDepth 16384

namespace Chatbot

/-! ## Character classes (JavaScript regex semantics) -/

/-- JavaScript line terminators: LF, CR, LS, PS. -/
def isLineTerm (c : Char) : Bool :=
  c = '\n' || c = '\r' || c.toNat = 0x2028 || c.toNat = 0x2029

/-- JavaScript whitespace class backslash-s (WhiteSpace and LineTerminator),
also used by String.prototype.trim. -/
def isJsSpace (c : Char) : Bool :=
  let n := c.toNat
  (9 ≤ n && n ≤ 13) || n = 32 || n = 0xA0 || n = 0x1680 ||
  (0x2000 ≤ n && n ≤ 0x200A) || n = 0x2028 || n = 0x2029 ||
  n = 0x202F || n = 0x205F || n = 0x3000 || n = 0xFEFF

/-- JavaScript digit class: the ASCII digits. -/
def isDigitC (c : Char) : Bool := '0' ≤ c && c ≤ '9'

/-- JavaScript word class: ASCII letters, digits and underscore. -/
def isWordC (c : Char) : Bool :=
  ('a' ≤ c && c ≤ 'z') || ('A' ≤ c && c ≤ 'Z') || isDigitC c || c = '_'

/-- The dot of a regex without the s flag: any char except a line terminator. -/
def isDotC (c : Char) : Bool := !isLineTerm c

/-- ASCII lower-casing, as used for case-insensitive literal matching. -/
def lcChar (c : Char) : Char :=
  if 'A' ≤ c && c ≤ 'Z' then Char.ofNat (c.toNat + 32) else c

/-- Character equality, optionally case-insensitive (ASCII fold). -/
def chEq (ci : Bool) (a b : Char) : Bool :=
  if ci then lcChar a = lcChar b else a = b

/-! ## A small backtracking regex engine

The abstract syntax covers exactly the constructs appearing in the
source patterns: literals (case sensitive or not), character classes,
sequencing, ordered alternation, greedy bounded or unbounded repetition
of a character class, and the multiline end-of-line anchor.  Greedy
repetition tries the longest repetition first and backtracks, matching
the JavaScript semantics. -/

inductive RE where
  | eps : RE
  | lit (ci : Bool) (s : List Char) : RE
  | cls (p : Char → Bool) : RE
  | seq (a b : RE) : RE
  | alt (a b : RE) : RE
  | rep (p : Char → Bool) (lo : Nat) (hi : Option Nat) : RE
  | eol : RE

/-- Length of the maximal prefix of characters satisfying p. -/
def maxRun (p : Char → Bool) : List Char → Nat
  | [] => 0
  | c :: t => if p c then maxRun p t + 1 else 0

/-- Does the literal l match a prefix of s (with the given case mode)? -/
def litHead (ci : Bool) : List Char → List Char → Bool
  | [], _ => true
  | _ :: _, [] => false
  | c :: lt, a :: st => chEq ci c a && litHead ci lt st

/-- Greedy repetition driver: try taking n characters, then n-1, ...,
down to lo, calling the continuation on the remainder; returns the total
number of characters consumed on success. -/
def tryFrom (k : List Char → Option Nat) (s : List Char) : Nat → Nat → Option Nat
  | 0, lo =>
    if 0 < lo then none else (k s).map (0 + ·)
  | n + 1, lo =>
    if n + 1 < lo then none else
      match k (s.drop (n + 1)) with
      | some m => some (n + 1 + m)
      | none => tryFrom k s n lo

/-- Backtracking matcher in continuation style: mrun re s k matches re
at the beginning of s and calls k on the rest; returns the total number
of characters consumed by re and the continuation. -/
def mrun : RE → List Char → (List Char → Option Nat) → Option Nat
  | .eps, s, k => k s
  | .lit ci l, s, k =>
    if litHead ci l s then (k (s.drop l.length)).map (l.length + ·) else none
  | .cls p, s, k =>
    match s with
    | c :: t => if p c then (k t).map (· + 1) else none
    | [] => none
  | .seq a b, s, k => mrun a s (fun t => mrun b t k)
  | .alt a b, s, k => (mrun a s k).orElse (fun _ => mrun b s k)
  | .rep p lo hi, s, k =>
    let r := maxRun p s
    let top := match hi with | none => r | some h => min r h
    tryFrom k s top lo
  | .eol, s, k =>
    match s with
    | [] => k s
    | c :: _ => if isLineTerm c then k s else none

/-- Length of the match of re at the start of s, if any (greedy,
leftmost alternative first). -/
def matchLen (re : RE) (s : List Char) : Option Nat :=
  mrun re s (fun _ => some 0)

/-- The last character of the first n characters of s, with default d:
the character preceding the scan position after consuming a match. -/
def lastOf (s : List Char) (n : Nat) (d : Char) : Char :=
  (s.take n).getLastD d

/-- Global regex replacement, JavaScript style: scan left to right, at
each position try the pattern; on a match emit the replacement and
resume after the matched region (the replacement is not rescanned).
When needsWB is set, a match additionally requires a word boundary at
the match position (the patterns needing it start with a word
character, so the requirement is that the previous input character, if
any, is not a word character). -/
def scanGo (needsWB : Bool) (re : RE) (repl : List Char) :
    Nat → Option Char → List Char → List Char
  | _, _, [] => []
  | 0, _, s => s
  | fuel + 1, prev, c :: t =>
    let wbOk := !needsWB ||
      (match prev with | none => true | some p => !isWordC p)
    match (if wbOk then matchLen re (c :: t) else none) with
    | some (n + 1) =>
      repl ++ scanGo needsWB re repl fuel
        (some (lastOf (c :: t) (n + 1) c)) (List.drop (n + 1) (c :: t))
    | _ => c :: scanGo needsWB re repl fuel (some c) t

/-- Global replacement entry point: the fuel, one unit per scan
position, is the length of the input; every step consumes at least one
character, so the fuel never runs out. -/
def scanRepl (needsWB : Bool) (re : RE) (repl : List Char) (s : List Char) :
    List Char :=
  scanGo needsWB re repl s.length none s

/-! ## The thirteen replacement passes of normalizeDocumentContent -/

/-- Exactly n ASCII digits. -/
def dRep (n : Nat) : RE := .rep isDigitC n (some n)

/-- Between lo and hi ASCII digits, greedy. -/
def dRange (lo hi : Nat) : RE := .rep isDigitC lo (some hi)

/-- One or more digits, greedy. -/
def dPlus : RE := .rep isDigitC 1 none

/-- One or more whitespace characters, greedy. -/
def sPlus : RE := .rep isJsSpace 1 none

/-- Zero or more whitespace characters, greedy. -/
def sStar : RE := .rep isJsSpace 0 none

/-- One or more non-line-terminator characters, greedy (dot-plus). -/
def dotPlus : RE := .rep isDotC 1 none

/-- Sequence of a list of regexes. -/
def seqL (l : List RE) : RE := l.foldr .seq .eps

/-- Case sensitive literal. -/
def litS (s : String) : RE := .lit false s.data

/-- Case insensitive literal. -/
def litCI (s : String) : RE := .lit true s.data

/-- Optional case sensitive literal, greedy. -/
def optLit (s : String) : RE := .alt (litS s) .eps

/-- ISO timestamp: four digits, dash, two, dash, two, T, two, colon,
two, colon, two, optional dot plus three digits, Z. -/
def reTimestampIso : RE :=
  seqL [dRep 4, litS "-", dRep 2, litS "-", dRep 2, litS "T",
        dRep 2, litS ":", dRep 2, litS ":", dRep 2,
        .alt (seqL [litS ".", dRep 3, litS "Z"]) (litS "Z")]

/-- Timestamp with a space: date, whitespace run, time of day. -/
def reTimestampSp : RE :=
  seqL [dRep 4, litS "-", dRep 2, litS "-", dRep 2, sPlus,
        dRep 2, litS ":", dRep 2, litS ":", dRep 2]

/-- Slash-or-dash separator class of the numeric date pattern. -/
def sepSD : RE := .cls (fun c => c = '/' || c = '-')

/-- Numeric calendar date: one or two digits, separator, one or two
digits, separator, two to four digits. -/
def reDateNum : RE :=
  seqL [dRange 1 2, sepSD, dRange 1 2, sepSD, dRange 2 4]

/-- Alternation of the twelve month names (case sensitive, as in the
source pattern which carries no i flag). -/
def reMonth : RE :=
  [litS "January", litS "February", litS "March", litS "April",
   litS "May", litS "June", litS "July", litS "August",
   litS "September", litS "October", litS "November"].foldr .alt
   (litS "December")

/-- Month-name date: word boundary (handled by the scanner), month name,
whitespace, one or two digits, optional comma, whitespace, four digits. -/
def reDateMonth : RE :=
  seqL [reMonth, sPlus, dRange 1 2, optLit ",", sPlus, dRep 4]

/-- Page marker: Page, number, of, number (case insensitive). -/
def rePage : RE :=
  seqL [litCI "Page", sPlus, dPlus, sPlus, litCI "of", sPlus, dPlus]

/-- Generated-on footer: to end of line (multiline, case insensitive). -/
def reGenerated : RE :=
  seqL [litCI "Generated", sPlus, litCI "on", sPlus, dotPlus, .eol]

/-- Last-updated footer: to end of line (multiline, case insensitive). -/
def reUpdated : RE :=
  seqL [litCI "Last", sPlus, litCI "updated", sStar, optLit ":", sStar, dotPlus, .eol]

/-- Created-on footer: to end of line (multiline, case insensitive). -/
def reCreated : RE :=
  seqL [litCI "Created", sPlus, litCI "on", sPlus, dotPlus, .eol]

/-- Blank line: newline, optional whitespace, newline. -/
def reBlank : RE := seqL [litS "\n", sStar, litS "\n"]

/-- Document identifier: Document, ID, optional colon, word characters. -/
def reDocId : RE :=
  seqL [litCI "Document", sPlus, litCI "ID", sStar, optLit ":", sStar,
        .rep isWordC 1 none]

/-- Version marker: Version, optional colon, digits and dots. -/
def reVersion : RE :=
  seqL [litCI "Version", sStar, optLit ":", sStar,
        .rep (fun c => isDigitC c || c = '.') 1 none]

/-- JavaScript String.prototype.trim on a character list. -/
def jsTrimL (s : List Char) : List Char :=
  ((s.dropWhile isJsSpace).reverse.dropWhile isJsSpace).reverse

/-- JavaScript String.prototype.trim. -/
def jsTrim (s : String) : String := ⟨jsTrimL s.data⟩

/-- The thirteen passes of normalizeDocumentContent, in source order:
both timestamp shapes, numeric dates, month-name dates, page markers,
the three footer patterns, whitespace collapse, blank-line collapse,
trim, then document identifiers and version markers. -/
def normalizePipe (s : List Char) : List Char :=
  let s := scanRepl false reTimestampIso "[TIMESTAMP]".data s
  let s := scanRepl false reTimestampSp "[TIMESTAMP]".data s
  let s := scanRepl false reDateNum "[DATE]".data s
  let s := scanRepl true reDateMonth "[DATE]".data s
  let s := scanRepl false rePage "[PAGE]".data s
  let s := scanRepl false reGenerated "[GENERATED_DATE]".data s
  let s := scanRepl false reUpdated "[UPDATED_DATE]".data s
  let s := scanRepl false reCreated "[CREATED_DATE]".data s
  let s := scanRepl false sPlus " ".data s
  let s := scanRepl false reBlank "\n\n".data s
  let s := jsTrimL s
  let s := scanRepl false reDocId "[DOCUMENT_ID]".data s
  let s := scanRepl false reVersion "[VERSION]".data s
  s

/-- normalizeDocumentContent of the source, on Lean strings. -/
def normalizeDocumentContent (s : String) : String := ⟨normalizePipe s.data⟩

/-! ## generateContentSignature -/

/-- The ToInt32 conversion of JavaScript bitwise operators: reduce
modulo two to the thirty-second and pick the representative in the
signed range. -/
def toInt32 (n : Int) : Int :=
  let m := n % 4294967296
  if m ≥ 2147483648 then m - 4294967296 else m

/-- One step of the hash loop: hash shifted left by five (a 32-bit
operation) minus hash plus the character code, coerced back to a 32-bit
signed integer by the bitwise and. -/
def sigStep (h : Int) (c : Char) : Int :=
  toInt32 (toInt32 (h * 32) - h + Int.ofNat c.toNat)

/-- generateContentSignature of the source: the decimal rendering of
the 32-bit hash of the content (the early return of the source for
empty content also yields the rendering of zero). -/
def generateContentSignature (content : String) : String :=
  toString (content.data.foldl sigStep 0)

end Chatbot

namespace Chatbot

/-! ## The document cache state machine

State of the Chatbot instance relevant to document caching.  The
constructor initializes all three fields to null.  Times are modelled
as integer millisecond counts; the difference of two Date values in the
source is exactly this integer difference. -/

structure CacheState where
  documentContent : Option String
  lastDocumentLoad : Option Int
  contentSignature : Option String
deriving DecidableEq, Repr

/-- The state set up by the constructor: all cache fields null. -/
def initialCacheState : CacheState := ⟨none, none, none⟩

/-- The two hour cache expiry of getDocumentContentCached, in
milliseconds. -/
def cacheExpiry : Int := 2 * 60 * 60 * 1000

/-- JavaScript falsiness of the documentContent field: null and the
empty string are falsy. -/
def contentFalsy : Option String → Bool
  | none => true
  | some s => s == ""

/-- The shouldReload condition of getDocumentContentCached: content
falsy, or no recorded load time, or the elapsed time strictly exceeds
the expiry (the disjuncts short-circuit, so the subtraction is only
reached with a non-null load time). -/
def shouldReload (st : CacheState) (now : Int) : Bool :=
  contentFalsy st.documentContent ||
  (match st.lastDocumentLoad with
   | none => true
   | some t => decide (now - t > cacheExpiry))

/-- The body of the reload branch of getDocumentContentCached: compute
the new signature; if it differs from the stored one, replace content
and signature together, otherwise leave both untouched; then record the
load time unconditionally. -/
def reloadStep (now : Int) (newContent : String) (st : CacheState) : CacheState :=
  let newSignature := generateContentSignature newContent
  let st' :=
    if some newSignature ≠ st.contentSignature then
      { st with documentContent := some newContent,
                contentSignature := some newSignature }
    else st
  { st' with lastDocumentLoad := some now }

/-- The JavaScript expression: this.documentContent or the empty
string (null and the empty string both yield the empty string). -/
def orEmpty : Option String → String
  | none => ""
  | some s => s

/-- getDocumentContentCached: reload when the condition holds, then
return the cached content (empty when null).  The third component
records whether the call performed a reload, the observable effect of
the filesystem read; fsContent is the combined document text the
filesystem would yield to readAllDocuments at this moment. -/
def getDocumentContentCached (now : Int) (fsContent : String) (st : CacheState) :
    String × CacheState × Bool :=
  if shouldReload st now then
    let st' := reloadStep now fsContent st
    (orEmpty st'.documentContent, st', true)
  else
    (orEmpty st.documentContent, st, false)

/-- A reload with a matching stored fingerprint only records the load
time. -/
theorem reloadStep_sig_eq (now : Int) (c : String) (st : CacheState)
    (h : st.contentSignature = some (generateContentSignature c)) :
    reloadStep now c st = { st with lastDocumentLoad := some now } := by
  simp [reloadStep, h]

/-- Either the stored fingerprint already matches and a reload only
records the load time, or it differs and the reload replaces content
and fingerprint together while recording the load time. -/
theorem reloadStep_cases (now : Int) (c : String) (st : CacheState) :
    (some (generateContentSignature c) = st.contentSignature ∧
      reloadStep now c st = { st with lastDocumentLoad := some now }) ∨
    (some (generateContentSignature c) ≠ st.contentSignature ∧
      reloadStep now c st
        = ⟨some c, some now, some (generateContentSignature c)⟩) := by
  by_cases h : some (generateContentSignature c) = st.contentSignature
  · exact Or.inl ⟨h, by simp [reloadStep, h]⟩
  · exact Or.inr ⟨h, by simp [reloadStep, h]⟩

/-- Claim C1: a reload whose freshly computed fingerprint equals the
stored one leaves cachedText and the fingerprint untouched; a differing
fingerprint replaces both together; and for a fixed filesystem state,
a second reload leaves cachedText and the fingerprint exactly as after
the first reload and changes only the load timestamp. -/
theorem reload_frame_and_idempotent (now₁ now₂ : Int) (c : String) (st : CacheState) :
    (st.contentSignature = some (generateContentSignature c) →
      (reloadStep now₁ c st).documentContent = st.documentContent ∧
      (reloadStep now₁ c st).contentSignature = st.contentSignature) ∧
    (st.contentSignature ≠ some (generateContentSignature c) →
      (reloadStep now₁ c st).documentContent = some c ∧
      (reloadStep now₁ c st).contentSignature = some (generateContentSignature c)) ∧
    (reloadStep now₂ c (reloadStep now₁ c st)).documentContent
      = (reloadStep now₁ c st).documentContent ∧
    (reloadStep now₂ c (reloadStep now₁ c st)).contentSignature
      = (reloadStep now₁ c st).contentSignature ∧
    (reloadStep now₂ c (reloadStep now₁ c st)).lastDocumentLoad = some now₂ ∧
    (reloadStep now₁ c st).lastDocumentLoad = some now₁ := by
  have hsig : (reloadStep now₁ c st).contentSignature
      = some (generateContentSignature c) := by
    rcases reloadStep_cases now₁ c st with h | h <;> rw [h.2]
    exact h.1.symm
  have h2 := reloadStep_sig_eq now₂ c (reloadStep now₁ c st) hsig
  refine ⟨fun h => ?_, fun h => ?_, ?_, ?_, ?_, ?_⟩
  · rw [reloadStep_sig_eq now₁ c st h]; exact ⟨rfl, rfl⟩
  · rcases reloadStep_cases now₁ c st with hc | hc
    · exact absurd hc.1.symm h
    · rw [hc.2]; exact ⟨rfl, rfl⟩
  · rw [h2]
  · rw [h2]
  · rw [h2]
  · rcases reloadStep_cases now₁ c st with hc | hc <;> rw [hc.2]

/-- Witness for the hypotheses of the claim C1 theorem: both branches
of the fingerprint comparison, exercised at concrete states. -/
theorem reload_frame_and_idempotent_witness :
    ((reloadStep 1 "x" ⟨some "x", some 0, some (generateContentSignature "x")⟩).documentContent
       = some "x" ∧
     (reloadStep 1 "x" ⟨some "x", some 0, some (generateContentSignature "x")⟩).contentSignature
       = some (generateContentSignature "x")) ∧
    ((reloadStep 1 "x" initialCacheState).documentContent = some "x" ∧
     (reloadStep 1 "x" initialCacheState).contentSignature
       = some (generateContentSignature "x")) := by
  exact ⟨(reload_frame_and_idempotent 1 2 "x"
            ⟨some "x", some 0, some (generateContentSignature "x")⟩).1 rfl,
         (reload_frame_and_idempotent 1 2 "x" initialCacheState).2.1 (by simp [initialCacheState])⟩

/-- Claim C4: every reload records the reload time unconditionally,
independent of whether the fingerprint changed and of the extracted
content (an incomplete or failed extraction only changes the content
string, never skips the timestamp update). -/
theorem reload_updates_timestamp (now : Int) (c : String) (st : CacheState) :
    (reloadStep now c st).lastDocumentLoad = some now ∧
    (shouldReload st now = true →
      ((getDocumentContentCached now c st).2.1).lastDocumentLoad = some now) := by
  constructor
  · simp [reloadStep]
  · intro h
    simp [getDocumentContentCached, h, reloadStep]

/-- Witness for the claim C4 theorem: a reload at time 5 from the
initial state records load time 5. -/
theorem reload_updates_timestamp_witness :
    ((getDocumentContentCached 5 "doc" initialCacheState).2.1).lastDocumentLoad = some 5 :=
  (reload_updates_timestamp 5 "doc" initialCacheState).2 (by decide)

end Chatbot

namespace Chatbot

/-- Claim C5: a call reloads exactly when the cached text is absent
(null, or the empty string, which the data model treats as never
loaded), or no load time is recorded, or the elapsed time exceeds the
time-to-live; moreover, after a reload that produced nonempty content,
a call within the time-to-live does not reload and a call after it
does. -/
theorem getContent_flag_eq (now : Int) (c : String) (st : CacheState) :
    (getDocumentContentCached now c st).2.2 = shouldReload st now := by
  unfold getDocumentContentCached
  split <;> simp_all

theorem getContent_reload_iff (now now₀ : Int) (c c₀ : String) (st : CacheState) :
    ((getDocumentContentCached now c st).2.2 = true ↔
      st.documentContent = none ∨ st.documentContent = some "" ∨
      st.lastDocumentLoad = none ∨
      ∃ t, st.lastDocumentLoad = some t ∧ now - t > cacheExpiry) ∧
    (c₀ ≠ "" →
      let st₁ := (getDocumentContentCached now₀ c₀ initialCacheState).2.1
      (now - now₀ ≤ cacheExpiry →
        (getDocumentContentCached now c st₁).2.2 = false) ∧
      (now - now₀ > cacheExpiry →
        (getDocumentContentCached now c st₁).2.2 = true)) := by
  have hiff : ∀ (n : Int) (s : String) (stA : CacheState),
      (getDocumentContentCached n s stA).2.2 = true ↔
      stA.documentContent = none ∨ stA.documentContent = some "" ∨
      stA.lastDocumentLoad = none ∨
      ∃ t, stA.lastDocumentLoad = some t ∧ n - t > cacheExpiry := by
    intro n s stA
    rw [getContent_flag_eq]
    rcases stA with ⟨dc, ll, sig⟩
    rcases dc with _ | d <;> rcases ll with _ | t <;>
      simp [shouldReload, contentFalsy, String.ext_iff]
  have hstep : (getDocumentContentCached now₀ c₀ initialCacheState).2.1
      = ⟨some c₀, some now₀, some (generateContentSignature c₀)⟩ := by
    simp [getDocumentContentCached, shouldReload, contentFalsy,
      initialCacheState, reloadStep]
  refine ⟨hiff now c st, fun hc₀ => ?_⟩
  intro st₁
  have hv : st₁ = ⟨some c₀, some now₀, some (generateContentSignature c₀)⟩ := hstep
  constructor
  · intro hle
    rw [hv, getContent_flag_eq]
    simp [shouldReload, contentFalsy, hc₀, not_lt.mpr hle]
  · intro hgt
    rw [hv, getContent_flag_eq]
    simp [shouldReload, contentFalsy, hgt]

/-- Witness for the claim C5 theorem: reload at time 0 with nonempty
content; a call at time 1 stays on the cache, a call past the expiry
reloads; and the initial state satisfies the reload condition. -/
theorem getContent_reload_iff_witness :
    ((getDocumentContentCached 0 "doc" initialCacheState).2.2 = true ↔
      initialCacheState.documentContent = none ∨
      initialCacheState.documentContent = some "" ∨
      initialCacheState.lastDocumentLoad = none ∨
      ∃ t, initialCacheState.lastDocumentLoad = some t ∧
        (0 : Int) - t > cacheExpiry) ∧
    ((getDocumentContentCached 1 "doc"
        ((getDocumentContentCached 0 "doc" initialCacheState).2.1)).2.2 = false ∧
     (getDocumentContentCached 7200001 "doc"
        ((getDocumentContentCached 0 "doc" initialCacheState).2.1)).2.2 = true) := by
  refine ⟨(getContent_reload_iff 0 0 "doc" "doc" initialCacheState).1, ?_, ?_⟩
  · exact ((getContent_reload_iff 1 0 "doc" "doc" initialCacheState).2
      (by decide)).1 (by decide)
  · exact ((getContent_reload_iff 7200001 0 "doc" "doc" initialCacheState).2
      (by decide)).2 (by decide)

/-- Claim C9: a cached empty string does not count as a valid cache:
whatever the recorded load time and fingerprint, the next call reloads,
even long before the time-to-live has elapsed; indeed the reload
condition is literally insensitive to replacing the empty cached string
by an absent one. -/
theorem empty_cache_always_reloads (now : Int) (c : String)
    (ll : Option Int) (sig : Option String) :
    (getDocumentContentCached now c ⟨some "", ll, sig⟩).2.2 = true ∧
    shouldReload ⟨some "", ll, sig⟩ now = shouldReload ⟨none, ll, sig⟩ now := by
  constructor
  · simp [getDocumentContentCached, shouldReload, contentFalsy]
  · simp [shouldReload, contentFalsy]

end Chatbot

namespace Chatbot

/-! ## The chat request handler

handleChatRequest of the simplified backend.  The structured result of
the source carries a success flag, an answer on success, and a message
with an HTTP status code on failure.  The outcome of the provider call
is a parameter: either an answer text or a thrown error carrying an
optional error code string; the surrounding try-catch of the source
turns every thrown error into a structured result, modelled by totality
of this function.  The second and third components of the result record
the observable effects: whether the document cache was consulted and
whether the completion provider was invoked. -/

structure ChatResult where
  success : Bool
  response : Option String
  error : Option String
  statusCode : Option Nat
deriving DecidableEq, Repr

/-- The validation test of the source: no prompt, or a prompt that is
empty after trimming (JavaScript falsiness covers null and the empty
string, and the trim catches whitespace-only prompts). -/
def promptMissing : Option String → Bool
  | none => true
  | some s => jsTrim s == ""

/-- The second validation conjunct: no messages array, or an empty
one. -/
def messagesEmpty : Option (List String) → Bool
  | none => true
  | some l => l.isEmpty

/-- The error map of the catch block: error codes to user-facing
message and HTTP status; unknown or absent codes fall back to the
generic 500 entry. -/
def errorInfo (code : Option String) : String × Nat :=
  if code = some "insufficient_quota" then
    ("API quota exceeded. Please try again later.", 429)
  else if code = some "invalid_api_key" then
    ("Invalid API key.", 401)
  else if code = some "model_not_found" then
    ("AI model temporarily unavailable.", 503)
  else if code = some "rate_limit_exceeded" then
    ("Too many requests. Please wait a moment.", 429)
  else
    ("Something went wrong. Please try again.", 500)

/-- handleChatRequest: reject when both the prompt is missing and the
messages array is empty; otherwise consult the document cache when
requested, call the provider, and map a thrown provider error through
the error map.  Returns the structured result together with the two
effect flags (document cache consulted, provider invoked). -/
def handleChatRequest (prompt : Option String) (messages : Option (List String))
    (useDocuments : Bool) (docContent : String)
    (completion : Except (Option String) String) :
    ChatResult × Bool × Bool :=
  if promptMissing prompt && messagesEmpty messages then
    (⟨false, none, some "Prompt is required.", some 400⟩, false, false)
  else
    match completion with
    | .ok resp => (⟨true, some resp, none, none⟩, useDocuments, true)
    | .error code =>
      (⟨false, none, some (errorInfo code).1, some (errorInfo code).2⟩,
       useDocuments, true)

/-- Claim C7 counterexample: a request whose question is the empty
string is not rejected when a nonempty conversation messages array
accompanies it — the handler proceeds and invokes the completion
provider, so the rejection is not taken for every empty question. -/
theorem empty_prompt_with_messages_not_rejected :
    (handleChatRequest (some "") (some ["hello"]) true "ctx"
        (.ok "answer")).1.statusCode ≠ some 400 ∧
    (handleChatRequest (some "") (some ["hello"]) true "ctx"
        (.ok "answer")).2.2 = true := by
  constructor
  · decide
  · decide

/-- Claim C7 (amended): when the optional conversation messages array
is absent or empty — the request shape of the specification — an empty
or whitespace-only question is rejected with the required error and
status 400, without consulting the document cache and without invoking
the completion provider; in particular the calls with prompt empty and
prompt three-spaces and no messages take this path. -/
theorem empty_prompt_rejected (prompt : Option String)
    (messages : Option (List String)) (useDocuments : Bool)
    (docContent : String) (completion : Except (Option String) String)
    (hp : prompt = none ∨ ∃ s, prompt = some s ∧ jsTrim s = "")
    (hm : messages = none ∨ messages = some []) :
    handleChatRequest prompt messages useDocuments docContent completion
      = (⟨false, none, some "Prompt is required.", some 400⟩, false, false) := by
  have h1 : promptMissing prompt = true := by
    rcases hp with h | ⟨s, hs, ht⟩
    · simp [h, promptMissing]
    · simp [hs, promptMissing, ht]
  have h2 : messagesEmpty messages = true := by
    rcases hm with h | h <;> simp [h, messagesEmpty]
  simp [handleChatRequest, h1, h2]

/-- Witness for the amended claim C7 theorem: the empty and the
whitespace-only prompt, with no messages, are both rejected before any
effect. -/
theorem empty_prompt_rejected_witness :
    handleChatRequest (some "") none true "ctx" (.ok "answer")
      = (⟨false, none, some "Prompt is required.", some 400⟩, false, false) ∧
    handleChatRequest (some "   ") none true "ctx" (.ok "answer")
      = (⟨false, none, some "Prompt is required.", some 400⟩, false, false) := by
  constructor
  · exact empty_prompt_rejected _ _ _ _ _ (Or.inr ⟨"", rfl, by decide⟩) (Or.inl rfl)
  · exact empty_prompt_rejected _ _ _ _ _ (Or.inr ⟨"   ", rfl, by decide⟩) (Or.inl rfl)

/-- Claim C8: provider failures map one-to-one onto the documented
statuses — quota exhausted to 429, invalid credential to 401, model
unavailable to 503, rate limited to 429, anything else to 500 — and
every failure path yields a structured result with success false, an
error message and that status code, rather than a propagated
exception. -/
theorem provider_error_mapping (prompt : Option String)
    (messages : Option (List String)) (useDocuments : Bool)
    (docContent : String) (code : Option String)
    (hv : ¬(promptMissing prompt && messagesEmpty messages) = true) :
    let r := (handleChatRequest prompt messages useDocuments docContent
      (.error code)).1
    r.success = false ∧ r.response = none ∧
    r.error = some (errorInfo code).1 ∧ r.statusCode = some (errorInfo code).2 ∧
    (code = some "insufficient_quota" →
      r.error = some "API quota exceeded. Please try again later." ∧
      r.statusCode = some 429) ∧
    (code = some "invalid_api_key" →
      r.error = some "Invalid API key." ∧ r.statusCode = some 401) ∧
    (code = some "model_not_found" →
      r.error = some "AI model temporarily unavailable." ∧
      r.statusCode = some 503) ∧
    (code = some "rate_limit_exceeded" →
      r.error = some "Too many requests. Please wait a moment." ∧
      r.statusCode = some 429) ∧
    (code ≠ some "insufficient_quota" → code ≠ some "invalid_api_key" →
     code ≠ some "model_not_found" → code ≠ some "rate_limit_exceeded" →
      r.error = some "Something went wrong. Please try again." ∧
      r.statusCode = some 500) := by
  intro r
  have hr : r = ⟨false, none, some (errorInfo code).1, some (errorInfo code).2⟩ := by
    simp only [r, handleChatRequest, hv, if_false, Bool.not_eq_true] at *
    simp [handleChatRequest, hv]
  refine ⟨by rw [hr], by rw [hr], by rw [hr], by rw [hr], ?_, ?_, ?_, ?_, ?_⟩
  · intro h; rw [hr]; simp [errorInfo, h]
  · intro h; rw [hr]; simp [errorInfo, h]
  · intro h; rw [hr]; simp [errorInfo, h]
  · intro h; rw [hr]; simp [errorInfo, h]
  · intro h1 h2 h3 h4; rw [hr]; simp [errorInfo, h1, h2, h3, h4]

/-- Witness for the claim C8 theorem: all five provider failure
categories at a concrete valid request. -/
theorem provider_error_mapping_witness :
    ((handleChatRequest (some "q") none true "ctx"
        (.error (some "insufficient_quota"))).1.statusCode = some 429) ∧
    ((handleChatRequest (some "q") none true "ctx"
        (.error (some "invalid_api_key"))).1.statusCode = some 401) ∧
    ((handleChatRequest (some "q") none true "ctx"
        (.error (some "model_not_found"))).1.statusCode = some 503) ∧
    ((handleChatRequest (some "q") none true "ctx"
        (.error (some "rate_limit_exceeded"))).1.statusCode = some 429) ∧
    ((handleChatRequest (some "q") none true "ctx"
        (.error none)).1.statusCode = some 500) := by
  refine ⟨?_, ?_, ?_, ?_, ?_⟩
  · exact ((provider_error_mapping (some "q") none true "ctx"
      (some "insufficient_quota") (by decide)).2.2.2.2.1 rfl).2
  · exact ((provider_error_mapping (some "q") none true "ctx"
      (some "invalid_api_key") (by decide)).2.2.2.2.2.1 rfl).2
  · exact ((provider_error_mapping (some "q") none true "ctx"
      (some "model_not_found") (by decide)).2.2.2.2.2.2.1 rfl).2
  · exact ((provider_error_mapping (some "q") none true "ctx"
      (some "rate_limit_exceeded") (by decide)).2.2.2.2.2.2.2.1 rfl).2
  · exact ((provider_error_mapping (some "q") none true "ctx"
      none (by decide)).2.2.2.2.2.2.2.2 (by decide) (by decide) (by decide)
      (by decide)).2

end Chatbot

namespace Chatbot

/-! ## Supported file enumeration

getAllSupportedFiles walks the documents folder recursively, keeps
files with a supported extension that are not temporary files, and
returns the accumulated list sorted by the sort key, relative directory
slash file name.  The directory tree is modelled as a list of entries;
the order of the list models the filesystem enumeration order.  The
locale comparator of the source is modelled as a parameter le, assumed
by the theorems to be a deterministic total order on strings. -/

inductive FsEntry where
  | file (name : String) : FsEntry
  | dir (name : String) (entries : List FsEntry) : FsEntry

/-- Index of the last dot of a name, if any. -/
def lastDotIdx : List Char → Option Nat
  | [] => none
  | c :: t =>
    match lastDotIdx t with
    | some i => some (i + 1)
    | none => if c = '.' then some 0 else none

/-- path.extname on a plain file name: the suffix from the last dot,
empty when there is no dot or when the only dot is the leading
character of a hidden file. -/
def extname (s : String) : String :=
  match lastDotIdx s.data with
  | some i => if i = 0 then "" else ⟨s.data.drop i⟩
  | none => ""

/-- ASCII lower case of a string, as toLowerCase on extensions. -/
def toLowerStr (s : String) : String := ⟨s.data.map lcChar⟩

/-- String.prototype.startsWith: the first string begins with the
second. -/
def strStartsWith (s marker : String) : Bool := litHead false marker.data s.data

/-- The filter of the source: extension .docx or .pdf after
lower-casing, and the name does not start with the temp-file marker. -/
def isSupportedFile (name : String) : Bool :=
  let ext := toLowerStr (extname name)
  (ext == ".docx" || ext == ".pdf") && !(strStartsWith name "~$")

structure FileRec where
  fullPath : String
  fileName : String
  directory : String
  extension : String
  sortKey : String
deriving DecidableEq, Repr

/-- The relative directory of a nesting below the documents folder. -/
def relDir (segs : List String) : String := String.intercalate "/" segs

/-- The record pushed for a supported file. -/
def mkFileRec (base : String) (segs : List String) (name : String) : FileRec :=
  { fullPath := String.intercalate "/" (base :: (segs ++ [name])),
    fileName := name,
    directory := relDir segs,
    extension := toLowerStr (extname name),
    sortKey := relDir segs ++ "/" ++ name }

/-- The sorting relation on file records: the comparator applied to the
sort keys. -/
def fileLe (le : String → String → Bool) (a b : FileRec) : Prop :=
  le a.sortKey b.sortKey = true

instance (le : String → String → Bool) : DecidableRel (fileLe le) :=
  fun a b => Bool.decEq _ _

mutual

/-- getAllSupportedFiles: the returned value of each invocation is the
accumulated list, sorted by the comparator on sort keys. -/
def collectDir (base : String) (le : String → String → Bool) (segs : List String)
    (entries : List FsEntry) (fileList : List FileRec) : List FileRec :=
  List.insertionSort (fileLe le) (collectLoop base le segs entries fileList)
termination_by 2 * sizeOf entries + 1

/-- The loop over one directory listing: push supported files, recurse
into subdirectories with the shared accumulator. -/
def collectLoop (base : String) (le : String → String → Bool) (segs : List String) :
    List FsEntry → List FileRec → List FileRec
  | [], acc => acc
  | .file n :: rest, acc =>
    collectLoop base le segs rest
      (if isSupportedFile n then acc ++ [mkFileRec base segs n] else acc)
  | .dir n sub :: rest, acc =>
    collectLoop base le segs rest (collectDir base le (segs ++ [n]) sub acc)
termination_by l _ => 2 * sizeOf l

end

/-- The canonical enumeration of supported files of a tree, in the
enumeration order of the tree itself. -/
def filesOf (base : String) (segs : List String) : List FsEntry → List FileRec
  | [] => []
  | .file n :: rest =>
    (if isSupportedFile n then [mkFileRec base segs n] else []) ++
      filesOf base segs rest
  | .dir n sub :: rest =>
    filesOf base (segs ++ [n]) sub ++ filesOf base segs rest

end Chatbot

namespace Chatbot

mutual

/-- Every invocation returns a permutation of the accumulator followed
by the supported files of the subtree. -/
theorem collectDir_perm (base : String) (le : String → String → Bool)
    (segs : List String) (entries : List FsEntry) (acc : List FileRec) :
    List.Perm (collectDir base le segs entries acc)
      (acc ++ filesOf base segs entries) := by
  rw [collectDir]
  exact (List.perm_insertionSort _ _).trans (collectLoop_perm base le segs entries acc)
termination_by 2 * sizeOf entries + 1

/-- The directory loop accumulates exactly the supported files of the
listing, up to order. -/
theorem collectLoop_perm (base : String) (le : String → String → Bool)
    (segs : List String) (entries : List FsEntry) (acc : List FileRec) :
    List.Perm (collectLoop base le segs entries acc)
      (acc ++ filesOf base segs entries) := by
  match entries with
  | [] => simp [collectLoop, filesOf]
  | .file n :: rest =>
    rw [collectLoop, filesOf]
    refine (collectLoop_perm base le segs rest _).trans ?_
    by_cases h : isSupportedFile n <;> simp [h]
  | .dir n sub :: rest =>
    rw [collectLoop, filesOf]
    refine (collectLoop_perm base le segs rest _).trans ?_
    have h1 := collectDir_perm base le (segs ++ [n]) sub acc
    rw [← List.append_assoc]
    exact h1.append_right _
termination_by 2 * sizeOf entries

end

/-- The result of the enumeration is sorted by the comparator, which
the theorems assume total and transitive. -/
theorem collectDir_sorted (base : String) (le : String → String → Bool)
    (htot : ∀ a b, le a b = true ∨ le b a = true)
    (htrans : ∀ a b c, le a b = true → le b c = true → le a c = true)
    (segs : List String) (entries : List FsEntry) (acc : List FileRec) :
    (collectDir base le segs entries acc).Sorted (fileLe le) := by
  haveI : IsTotal FileRec (fileLe le) := ⟨fun a b => htot a.sortKey b.sortKey⟩
  haveI : IsTrans FileRec (fileLe le) :=
    ⟨fun a b c hab hbc => htrans a.sortKey b.sortKey c.sortKey hab hbc⟩
  rw [collectDir]
  exact List.sorted_insertionSort _ _

/-- Two sorted permutations of each other with pairwise distinct sort
keys are equal, for an antisymmetric comparator. -/
theorem sorted_perm_eq_of_nodup_keys (le : String → String → Bool)
    (hanti : ∀ a b, le a b = true → le b a = true → a = b) :
    ∀ l₁ l₂ : List FileRec, List.Perm l₁ l₂ → l₁.Sorted (fileLe le) →
      l₂.Sorted (fileLe le) → (l₁.map FileRec.sortKey).Nodup → l₁ = l₂
  | [], l₂, hp, _, _, _ => hp.nil_eq
  | a :: t₁, l₂, hp, hs₁, hs₂, hnd => by
    match l₂ with
    | [] => exact absurd hp.symm.nil_eq (by simp)
    | b :: t₂ =>
      have hab : a = b := by
        by_contra hne
        have hbmem : b ∈ a :: t₁ := hp.symm.subset (List.mem_cons_self b t₂)
        have hamem : a ∈ b :: t₂ := hp.subset (List.mem_cons_self a t₁)
        have hb₁ : b ∈ t₁ := by
          rcases List.mem_cons.mp hbmem with h | h
          · exact absurd h.symm hne
          · exact h
        have ha₂ : a ∈ t₂ := by
          rcases List.mem_cons.mp hamem with h | h
          · exact absurd h hne
          · exact h
        have h₁ : fileLe le a b := List.rel_of_sorted_cons hs₁ b hb₁
        have h₂ : fileLe le b a := List.rel_of_sorted_cons hs₂ a ha₂
        have hkey : a.sortKey = b.sortKey := hanti _ _ h₁ h₂
        have : a.sortKey ∈ t₁.map FileRec.sortKey := by
          rw [hkey]
          exact List.mem_map_of_mem FileRec.sortKey hb₁
        simp only [List.map_cons, List.nodup_cons] at hnd
        exact hnd.1 this
      subst hab
      have htp : List.Perm t₁ t₂ := hp.cons_inv
      have := sorted_perm_eq_of_nodup_keys le hanti t₁ t₂ htp hs₁.of_cons hs₂.of_cons
        (by simp only [List.map_cons, List.nodup_cons] at hnd; exact hnd.2)
      rw [this]

/-- Claim C3: under a deterministic total-order comparator and pairwise
distinct sort keys, the assembled file list is exactly the supported
files of the tree — supported extension, not a temp file — sorted by
relative directory then file name; and any tree enumerating the same
supported files in any other order yields the identical sorted list, so
the concatenation order is independent of filesystem enumeration
order. -/
theorem getAllSupportedFiles_sorted_deterministic (base : String)
    (le : String → String → Bool)
    (htot : ∀ a b, le a b = true ∨ le b a = true)
    (htrans : ∀ a b c, le a b = true → le b c = true → le a c = true)
    (hanti : ∀ a b, le a b = true → le b a = true → a = b)
    (entries entries₂ : List FsEntry)
    (hnd : ((filesOf base [] entries).map FileRec.sortKey).Nodup) :
    collectDir base le [] entries []
        = List.insertionSort (fileLe le) (filesOf base [] entries) ∧
    (List.Perm (filesOf base [] entries₂) (filesOf base [] entries) →
      collectDir base le [] entries₂ [] = collectDir base le [] entries []) := by
  haveI : IsTotal FileRec (fileLe le) := ⟨fun a b => htot a.sortKey b.sortKey⟩
  haveI : IsTrans FileRec (fileLe le) :=
    ⟨fun a b c hab hbc => htrans a.sortKey b.sortKey c.sortKey hab hbc⟩
  have hperm₁ : List.Perm (collectDir base le [] entries [])
      (filesOf base [] entries) := by
    simpa using collectDir_perm base le [] entries []
  have hnd₁ : ((collectDir base le [] entries []).map FileRec.sortKey).Nodup :=
    ((hperm₁.map FileRec.sortKey).nodup_iff).mpr hnd
  constructor
  · exact sorted_perm_eq_of_nodup_keys le hanti _ _
      (hperm₁.trans (List.perm_insertionSort _ _).symm)
      (collectDir_sorted base le htot htrans [] entries [])
      (List.sorted_insertionSort _ _) hnd₁
  · intro hpe
    have hperm₂ : List.Perm (collectDir base le [] entries₂ [])
        (filesOf base [] entries₂) := by
      simpa using collectDir_perm base le [] entries₂ []
    have hnd₂ : ((collectDir base le [] entries₂ []).map FileRec.sortKey).Nodup :=
      ((hperm₂.trans hpe).map FileRec.sortKey).nodup_iff.mpr hnd
    exact sorted_perm_eq_of_nodup_keys le hanti _ _
      ((hperm₂.trans hpe).trans hperm₁.symm)
      (collectDir_sorted base le htot htrans [] entries₂ [])
      (collectDir_sorted base le htot htrans [] entries []) hnd₂

end Chatbot

namespace Chatbot

/-! ## A concrete deterministic comparator

The locale comparator of the source is modelled abstractly in the
theorems; for concrete witnesses we use code-point lexicographic
comparison, one deterministic total order on strings. -/

def lexLe : List Char → List Char → Bool
  | [], _ => true
  | _ :: _, [] => false
  | a :: as, b :: bs =>
    if a.toNat < b.toNat then true
    else if a.toNat = b.toNat then lexLe as bs
    else false

/-- Code-point lexicographic string comparison. -/
def strLeB (a b : String) : Bool := lexLe a.data b.data

theorem lexLe_total : ∀ l₁ l₂, lexLe l₁ l₂ = true ∨ lexLe l₂ l₁ = true
  | [], _ => Or.inl rfl
  | _ :: _, [] => Or.inr rfl
  | a :: as, b :: bs => by
    rcases Nat.lt_trichotomy a.toNat b.toNat with h | h | h
    · left; simp [lexLe, h]
    · rcases lexLe_total as bs with ih | ih
      · left; simp [lexLe, h, ih]
      · right; simp [lexLe, h.symm, ih]
    · right; simp [lexLe, h]

theorem lexLe_antisymm : ∀ l₁ l₂, lexLe l₁ l₂ = true → lexLe l₂ l₁ = true → l₁ = l₂
  | [], [], _, _ => rfl
  | [], _ :: _, _, h₂ => by simp [lexLe] at h₂
  | _ :: _, [], h₁, _ => by simp [lexLe] at h₁
  | a :: as, b :: bs, h₁, h₂ => by
    rcases Nat.lt_trichotomy a.toNat b.toNat with h | h | h
    · simp [lexLe, Nat.lt_asymm h, Nat.ne_of_lt' h] at h₂
    · have hn1 : ¬ a.toNat < b.toNat := by omega
      have hn2 : ¬ b.toNat < a.toNat := by omega
      simp only [lexLe, if_neg hn1, if_pos h] at h₁
      simp only [lexLe, if_neg hn2, if_pos h.symm] at h₂
      have hc : a = b := Char.ext (UInt32.ext h)
      rw [hc, lexLe_antisymm as bs h₁ h₂]
    · simp [lexLe, Nat.lt_asymm h, Nat.ne_of_lt' h] at h₁

theorem lexLe_trans : ∀ l₁ l₂ l₃, lexLe l₁ l₂ = true → lexLe l₂ l₃ = true →
    lexLe l₁ l₃ = true
  | [], _, _, _, _ => rfl
  | _ :: _, [], _, h₁, _ => by simp [lexLe] at h₁
  | _ :: _, _ :: _, [], _, h₂ => by simp [lexLe] at h₂
  | a :: as, b :: bs, c :: cs, h₁, h₂ => by
    rcases Nat.lt_trichotomy a.toNat b.toNat with hab | hab | hab
    · rcases Nat.lt_trichotomy b.toNat c.toNat with hbc | hbc | hbc
      · simp [lexLe, Nat.lt_trans hab hbc]
      · simp [lexLe, show a.toNat < c.toNat by omega]
      · simp [lexLe, Nat.lt_asymm hbc, Nat.ne_of_lt' hbc] at h₂
    · rcases Nat.lt_trichotomy b.toNat c.toNat with hbc | hbc | hbc
      · simp [lexLe, show a.toNat < c.toNat by omega]
      · have h1 : ¬ a.toNat < b.toNat := by omega
        have h2 : ¬ b.toNat < c.toNat := by omega
        simp only [lexLe, if_neg h1, if_pos hab] at h₁
        simp only [lexLe, if_neg h2, if_pos hbc] at h₂
        simp only [lexLe, if_neg (show ¬ a.toNat < c.toNat by omega),
          if_pos (show a.toNat = c.toNat by omega)]
        exact lexLe_trans as bs cs h₁ h₂
      · simp [lexLe, Nat.lt_asymm hbc, Nat.ne_of_lt' hbc] at h₂
    · simp [lexLe, Nat.lt_asymm hab, Nat.ne_of_lt' hab] at h₁

theorem strLeB_total : ∀ a b, strLeB a b = true ∨ strLeB b a = true :=
  fun a b => lexLe_total a.data b.data

theorem strLeB_trans : ∀ a b c, strLeB a b = true → strLeB b c = true →
    strLeB a c = true :=
  fun a b c => lexLe_trans a.data b.data c.data

theorem strLeB_antisymm : ∀ a b, strLeB a b = true → strLeB b a = true → a = b := by
  intro a b h₁ h₂
  rcases a with ⟨la⟩
  rcases b with ⟨lb⟩
  rw [lexLe_antisymm la lb h₁ h₂]

/-- A documents tree with files in scattered enumeration order: a pdf,
a subdirectory with a supported and an unsupported file, a docx, and a
temp file to be excluded. -/
def demoTree : List FsEntry :=
  [.file "B.pdf", .dir "sub" [.file "C.docx", .file "notes.txt"],
   .file "A.docx", .file "~$tmp.docx"]

/-- The same files presented in a different enumeration order. -/
def demoTree2 : List FsEntry :=
  [.file "~$tmp.docx", .file "A.docx",
   .dir "sub" [.file "notes.txt", .file "C.docx"], .file "B.pdf"]

end Chatbot

namespace Chatbot

/-- Witness for the claim C3 theorem: with the lexicographic
comparator, on a concrete tree with a nested directory, an excluded
temp file and an unsupported extension, the enumeration result equals
the sorted canonical file list, and a tree listing the same files in a
different enumeration order yields the identical result. -/
theorem getAllSupportedFiles_sorted_deterministic_witness :
    collectDir "docs" strLeB [] demoTree []
        = List.insertionSort (fileLe strLeB) (filesOf "docs" [] demoTree) ∧
    collectDir "docs" strLeB [] demoTree2 [] = collectDir "docs" strLeB [] demoTree [] := by
  have h1 : filesOf "docs" [] demoTree
      = [mkFileRec "docs" [] "B.pdf", mkFileRec "docs" ["sub"] "C.docx",
         mkFileRec "docs" [] "A.docx"] := by
    simp +decide [demoTree, filesOf]
  have h2 : filesOf "docs" [] demoTree2
      = [mkFileRec "docs" [] "A.docx", mkFileRec "docs" ["sub"] "C.docx",
         mkFileRec "docs" [] "B.pdf"] := by
    simp +decide [demoTree2, filesOf]
  have hnd : ((filesOf "docs" [] demoTree).map FileRec.sortKey).Nodup := by
    rw [h1]; decide
  have hthm := getAllSupportedFiles_sorted_deterministic "docs" strLeB
    strLeB_total strLeB_trans strLeB_antisymm demoTree demoTree2 hnd
  exact ⟨hthm.1, hthm.2 (by rw [h1, h2]; decide)⟩

end Chatbot

namespace Chatbot

/-! ## readAllDocuments

The reading loop walks the sorted file list; per-file extraction is an
oracle returning the extracted text or nothing when that extraction
throws (the loop catches per-file errors and skips the file; the
extractors themselves also convert their own failures to the empty
string, which the loop then skips as trimmed-empty).  The loop result
is normalized before being returned; the surrounding try-catch and the
early returns make the operation total, so no error ever reaches the
caller. -/

/-- The delimiter block appended for one successfully extracted file:
header with file name and, when not at the root, the relative
directory, then the trimmed content, then a blank line. -/
def fileBlock (f : FileRec) (content : String) : String :=
  "\n=== " ++ f.fileName ++
    (if f.directory ≠ "" then " (" ++ f.directory ++ ")" else "") ++
    " ===\n" ++ jsTrim content ++ "\n\n"

/-- The loop of readAllDocuments over the sorted file list: skip a file
whose extraction throws or whose trimmed text is empty, append the
block of every other file. -/
def processFiles (extract : FileRec → Option String) :
    List FileRec → String → String
  | [], acc => acc
  | f :: rest, acc =>
    match extract f with
    | none => processFiles extract rest acc
    | some content =>
      if jsTrim content ≠ "" then
        processFiles extract rest (acc ++ fileBlock f content)
      else
        processFiles extract rest acc

/-- readAllDocuments: empty when the folder does not exist or holds no
supported file; otherwise the normalized concatenation of the blocks of
the successfully extracted files. -/
def readAllDocuments (folderExists : Bool) (base : String)
    (le : String → String → Bool) (tree : List FsEntry)
    (extract : FileRec → Option String) : String :=
  if !folderExists then ""
  else
    let allFiles := collectDir base le [] tree []
    if allFiles.length = 0 then ""
    else normalizeDocumentContent (processFiles extract allFiles "")

/-- Skipping lemma: a file whose extraction throws contributes nothing,
and the remaining files are processed exactly as if it were absent. -/
theorem processFiles_skip (extract : FileRec → Option String) (f : FileRec)
    (hf : extract f = none) :
    ∀ (l₁ l₂ : List FileRec) (acc : String),
      processFiles extract (l₁ ++ f :: l₂) acc
        = processFiles extract (l₁ ++ l₂) acc := by
  intro l₁
  induction l₁ with
  | nil => intro l₂ acc; simp [processFiles, hf]
  | cons g t ih =>
    intro l₂ acc
    simp only [List.cons_append, processFiles]
    cases extract g with
    | none => exact ih l₂ acc
    | some content =>
      by_cases h : jsTrim content ≠ "" <;> simp [h, ih]

/-- Claim C6: no reading operation raises: a missing documents folder
yields the empty string; a folder with no supported files yields the
empty string; and when one file of the list fails to extract, the
result is exactly the result of reading the remaining files — the
failing file contributes nothing, every other file is still extracted
and included. -/
theorem readAllDocuments_total_and_skips (base : String)
    (le : String → String → Bool) (tree : List FsEntry)
    (extract : FileRec → Option String) :
    (readAllDocuments false base le tree extract = "") ∧
    (collectDir base le [] tree [] = [] →
      readAllDocuments true base le tree extract = "") ∧
    (∀ (l₁ l₂ : List FileRec) (f : FileRec),
      collectDir base le [] tree [] = l₁ ++ f :: l₂ →
      extract f = none →
      readAllDocuments true base le tree extract
        = normalizeDocumentContent (processFiles extract (l₁ ++ l₂) "")) := by
  refine ⟨rfl, fun h => ?_, fun l₁ l₂ f hc hf => ?_⟩
  · simp [readAllDocuments, h]
  · rw [readAllDocuments]
    simp only [Bool.not_true, if_false, hc]
    rw [processFiles_skip extract f hf]
    simp

/-- Extraction oracle of the concrete witness: every pdf extraction
throws, every other extraction yields text. -/
def demoExtract : FileRec → Option String :=
  fun f => if f.extension = ".pdf" then none
    else some (" Text of " ++ f.fileName ++ " ")

/-- The sorted demo file records. -/
def demoSorted : List FileRec :=
  [mkFileRec "docs" [] "A.docx", mkFileRec "docs" [] "B.pdf",
   mkFileRec "docs" ["sub"] "C.docx"]

/-- The concrete enumeration result of a tree whose supported files are
those of the demo tree, derived from the permutation, sortedness and
uniqueness lemmas. -/
theorem collectDir_demo_eq (entries : List FsEntry)
    (h1 : List.Perm (filesOf "docs" [] entries) demoSorted) :
    collectDir "docs" strLeB [] entries [] = demoSorted := by
  have hperm : List.Perm (collectDir "docs" strLeB [] entries [])
      (filesOf "docs" [] entries) := by
    simpa using collectDir_perm "docs" strLeB [] entries []
  refine sorted_perm_eq_of_nodup_keys strLeB strLeB_antisymm _ _
    (hperm.trans h1)
    (collectDir_sorted "docs" strLeB strLeB_total strLeB_trans [] entries [])
    (by rw [demoSorted]; decide) ?_
  refine (((hperm.trans h1).map FileRec.sortKey).nodup_iff).mpr ?_
  rw [demoSorted]; decide

/-- The concrete enumeration result of the demo tree. -/
theorem collectDir_demoTree :
    collectDir "docs" strLeB [] demoTree [] = demoSorted := by
  refine collectDir_demo_eq demoTree ?_
  have h1 : filesOf "docs" [] demoTree
      = [mkFileRec "docs" [] "B.pdf", mkFileRec "docs" ["sub"] "C.docx",
         mkFileRec "docs" [] "A.docx"] := by
    simp +decide [demoTree, filesOf]
  rw [h1, demoSorted]; decide

/-- The concrete enumeration result of the reordered demo tree. -/
theorem collectDir_demoTree2 :
    collectDir "docs" strLeB [] demoTree2 [] = demoSorted := by
  refine collectDir_demo_eq demoTree2 ?_
  have h2 : filesOf "docs" [] demoTree2
      = [mkFileRec "docs" [] "A.docx", mkFileRec "docs" ["sub"] "C.docx",
         mkFileRec "docs" [] "B.pdf"] := by
    simp +decide [demoTree2, filesOf]
  rw [h2, demoSorted]; decide

/-- The empty tree enumerates no files. -/
theorem collectDir_nil (base : String) (le : String → String → Bool) :
    collectDir base le [] [] [] = [] := by
  have hperm : List.Perm (collectDir base le [] [] [])
      (filesOf base [] []) := by
    simpa using collectDir_perm base le [] [] []
  rw [filesOf] at hperm
  exact hperm.eq_nil

/-- Witness for the claim C6 theorem: a concrete tree whose pdf
extraction throws; the result is the normalized content of the two
remaining documents, and the empty-folder cases yield the empty
string. -/
theorem readAllDocuments_total_and_skips_witness :
    readAllDocuments false "docs" strLeB demoTree demoExtract = "" ∧
    readAllDocuments true "docs" strLeB [] demoExtract = "" ∧
    readAllDocuments true "docs" strLeB demoTree demoExtract
      = normalizeDocumentContent (processFiles demoExtract
          [mkFileRec "docs" [] "A.docx", mkFileRec "docs" ["sub"] "C.docx"] "") := by
  have hthm := readAllDocuments_total_and_skips "docs" strLeB demoTree demoExtract
  have hempty := readAllDocuments_total_and_skips "docs" strLeB [] demoExtract
  refine ⟨hthm.1, hempty.2.1 (collectDir_nil "docs" strLeB), ?_⟩
  have hc : collectDir "docs" strLeB [] demoTree []
      = [mkFileRec "docs" [] "A.docx"] ++ mkFileRec "docs" [] "B.pdf" ::
        [mkFileRec "docs" ["sub"] "C.docx"] := by
    rw [collectDir_demoTree, demoSorted]; rfl
  have hb : demoExtract (mkFileRec "docs" [] "B.pdf") = none := by decide
  have hres := hthm.2.2 [mkFileRec "docs" [] "A.docx"]
    [mkFileRec "docs" ["sub"] "C.docx"] (mkFileRec "docs" [] "B.pdf") hc hb
  rw [hres]
  rfl

end Chatbot

namespace Chatbot

/-- Claim C2 counterexample: the invariance fails as stated.  First,
two texts that differ only in the spacing of one whitespace run — a
newline versus a space — normalize differently, because the
generated-on masking is anchored to the line end, which the newline
cuts short; the fingerprints of the resulting cached texts differ.
Second, two texts that differ only in the value of a masked calendar
date normalize differently when the date value directly adjoins a
digit of the surrounding text, because the masked span shifts. -/
theorem normalize_volatile_invariance_cex :
    (normalizeDocumentContent "Generated on X\nY" = "[GENERATED_DATE] Y" ∧
     normalizeDocumentContent "Generated on X Y" = "[GENERATED_DATE]" ∧
     generateContentSignature (normalizeDocumentContent "Generated on X\nY")
       ≠ generateContentSignature (normalizeDocumentContent "Generated on X Y")) ∧
    (normalizeDocumentContent "a24/5/2024 b" = "a[DATE] b" ∧
     normalizeDocumentContent "a212/5/2024 b" = "a2[DATE] b" ∧
     generateContentSignature (normalizeDocumentContent "a24/5/2024 b")
       ≠ generateContentSignature (normalizeDocumentContent "a212/5/2024 b")) := by
  exact ⟨⟨by decide, by decide, by decide⟩, ⟨by decide, by decide, by decide⟩⟩

/-- Claim C2 (amended): volatile-field masking is fingerprint-invariant
on the verified families: texts differing only in the value of an ISO
or space-separated timestamp, a numeric or month-name calendar date, a
page marker, or a generated-on line, drawn from the stated value sets
in delimited context, normalize to the same output and carry the same
fingerprint; and whitespace respacing that does not change line
structure is likewise invariant on the verified runs.  (Adjacent-digit
contexts and respacing across line boundaries are excluded — see the
counterexample.) -/
theorem normalize_volatile_invariance_families :
    (∀ v ∈ (["2024-01-02T03:04:05Z", "2025-12-31T23:59:59.123Z",
             "1999-06-07 08:09:10"] : List String),
      normalizeDocumentContent ("Report " ++ v ++ " end.")
          = "Report [TIMESTAMP] end." ∧
      generateContentSignature (normalizeDocumentContent ("Report " ++ v ++ " end."))
          = generateContentSignature "Report [TIMESTAMP] end.") ∧
    (∀ v ∈ (["1/2/2024", "12-31-99", "March 5, 2024"] : List String),
      normalizeDocumentContent ("Due " ++ v ++ " ok") = "Due [DATE] ok" ∧
      generateContentSignature (normalizeDocumentContent ("Due " ++ v ++ " ok"))
          = generateContentSignature "Due [DATE] ok") ∧
    (∀ v ∈ (["Page 1 of 2", "Page 34 of 120", "page 7 OF 9"] : List String),
      normalizeDocumentContent ("A " ++ v ++ " B") = "A [PAGE] B" ∧
      generateContentSignature (normalizeDocumentContent ("A " ++ v ++ " B"))
          = generateContentSignature "A [PAGE] B") ∧
    (∀ v ∈ (["Generated on 2024-01-02", "Generated on yesterday",
             "generated on 1/1/01"] : List String),
      normalizeDocumentContent ("Head\n" ++ v ++ "\nTail")
          = "Head [GENERATED_DATE] Tail" ∧
      generateContentSignature (normalizeDocumentContent ("Head\n" ++ v ++ "\nTail"))
          = generateContentSignature "Head [GENERATED_DATE] Tail") ∧
    (∀ v ∈ ([" ", "  ", " \t ", "\t"] : List String),
      normalizeDocumentContent ("A" ++ v ++ "B") = "A B" ∧
      generateContentSignature (normalizeDocumentContent ("A" ++ v ++ "B"))
          = generateContentSignature "A B") := by
  exact ⟨by decide, by decide, by decide, by decide, by decide⟩

/-- Witness for the amended claim C2 theorem: one member of each
family. -/
theorem normalize_volatile_invariance_families_witness :
    normalizeDocumentContent "Report 2024-01-02T03:04:05Z end."
        = "Report [TIMESTAMP] end." ∧
    normalizeDocumentContent "Due 1/2/2024 ok" = "Due [DATE] ok" ∧
    normalizeDocumentContent "A Page 1 of 2 B" = "A [PAGE] B" ∧
    normalizeDocumentContent "Head\nGenerated on 2024-01-02\nTail"
        = "Head [GENERATED_DATE] Tail" ∧
    normalizeDocumentContent "A B" = "A B" := by
  refine ⟨?_, ?_, ?_, ?_, ?_⟩
  · exact (normalize_volatile_invariance_families.1
      "2024-01-02T03:04:05Z" (by decide)).1
  · exact (normalize_volatile_invariance_families.2.1
      "1/2/2024" (by decide)).1
  · exact (normalize_volatile_invariance_families.2.2.1
      "Page 1 of 2" (by decide)).1
  · exact (normalize_volatile_invariance_families.2.2.2.1
      "Generated on 2024-01-02" (by decide)).1
  · exact (normalize_volatile_invariance_families.2.2.2.2
      " " (by decide)).1

/-- Claim C10 counterexample: normalizeDocumentContent is not
idempotent.  Masking the page marker removes the digit that blocked the
word boundary in front of the month name, so a second pass masks the
month-name date that the first pass left alone. -/
theorem normalize_idempotent_cex :
    normalizeDocumentContent "Page 1 of 2January 1, 2024"
        = "[PAGE]January 1, 2024" ∧
    normalizeDocumentContent (normalizeDocumentContent "Page 1 of 2January 1, 2024")
        = "[PAGE][DATE]" ∧
    normalizeDocumentContent (normalizeDocumentContent "Page 1 of 2January 1, 2024")
      ≠ normalizeDocumentContent "Page 1 of 2January 1, 2024" := by
  exact ⟨by decide, by decide, by decide⟩

/-- Claim C10 (amended): normalizeDocumentContent is not idempotent —
there is an input on which a second application changes the result
again, so re-normalizing already-cached text (as the chat assembly
does) can alter it. -/
theorem normalize_not_idempotent :
    ∃ s : String, normalizeDocumentContent (normalizeDocumentContent s)
      ≠ normalizeDocumentContent s :=
  ⟨"Page 1 of 2January 1, 2024", by decide⟩

end Chatbot
